import Mathlib

/-!
Verification development for the medusa static site generator.

The definitions below are a shallow embedding of the content pipeline
(`medusa/content.py`, `medusa/utils.py`, `medusa/renderers.py`,
`medusa/collections.py`) and of the dev-server rebuild loop
(`medusa/server.py`).  Every definition is translated from the Python
source; the doc comment of each definition names the function it embeds.
-/

namespace Medusa

/-! ## Dev server rebuild loop (src/medusa/server.py)

`DevServer.rebuild` is a synchronous function of the mutable server state.
We model the state it reads and writes (`_rebuilding`, `_last_rebuild_at`,
`_last_signature`, and the contents of the live output directory) and turn
the method into a pure state-transition function.  The build orchestrator
`build_site` is the external call that can fail; we pass its outcome in as
an `Except` value.  The type `σ` stands for signatures, `α` for the tree of
files a build produces, `ε` for build errors. -/

/-- Mutable server state read and written by `DevServer.rebuild`:
`_rebuilding`, `_last_rebuild_at` (seconds), `_last_signature`, and the
live output directory (`none` when it does not exist yet). -/
structure DevState (σ α : Type) where
  rebuilding : Bool
  lastRebuildAt : ℚ
  lastSignature : Option σ
  liveOutput : Option α

/-- Observable side effects of one `DevServer.rebuild` call: whether the
staging directory was (re)created (`_prepare_staging_dir`), whether it was
swapped in as live output (`_activate_staging`, an `os.replace`), and
whether a reload message was broadcast (`_broadcast_reload`). -/
structure RebuildEvents where
  staged : Bool
  activated : Bool
  broadcast : Bool
  deriving DecidableEq

/-- `self._debounce_seconds = 0.05` from `DevServer.__init__`. -/
def debounceSeconds : ℚ := 1 / 20

/-- Shallow embedding of `DevServer.rebuild` (server.py lines 245-270).
`now` is the `time.time()` read at entry, `signature` the value of
`self._compute_signature()`, `buildResult` the outcome of the
`build_site` call, and `endTime` the `time.time()` read in the `finally`
block.  On the error path the `finally` block still clears `_rebuilding`
and stamps `_last_rebuild_at`, while `_activate_staging` and
`_broadcast_reload` are skipped, so the live output and `_last_signature`
are unchanged. -/
def rebuild {σ α ε : Type} [DecidableEq σ] (st : DevState σ α) (now : ℚ)
    (signature : Option σ) (buildResult : Except ε α) (endTime : ℚ) :
    DevState σ α × RebuildEvents :=
  if st.rebuilding = true ∨ now - st.lastRebuildAt < debounceSeconds then
    (st, ⟨false, false, false⟩)
  else if signature ≠ none ∧ signature = st.lastSignature then
    (st, ⟨false, false, false⟩)
  else
    match buildResult with
    | Except.ok out => (⟨false, endTime, signature, some out⟩, ⟨true, true, true⟩)
    | Except.error _ =>
        (⟨false, endTime, st.lastSignature, st.liveOutput⟩, ⟨true, false, false⟩)

/-- Shallow embedding of the final statement of
`DevServer._compute_signature` (server.py lines 272-287): `entries` is the
list of `(relative_path, mtime_ns, size)` tuples collected from the walk
of the watched roots, and the function returns
`tuple(entries) if entries else None`. -/
def computeSignature (entries : List (String × ℕ × ℕ)) :
    Option (List (String × ℕ × ℕ)) :=
  if entries.isEmpty then none else some entries

/-! ## Page collections (src/medusa/collections.py, src/medusa/utils.py)

`PageCollection.sorted` sorts by the key
`(p.date, num_key, name_key)` built in `sort_key`, with Python's stable
`sorted(..., reverse=reverse)`.  We model the two stem helpers
`extract_number_from_name` and `strip_number_prefix` from `utils.py`
over `List Char` (Python `str.split("-")`, `str.isdigit`, `int(...)`,
`str.lower`), and the sort itself as a stable insertion sort: for a total
preorder there is exactly one stable ordering, so this agrees with
CPython's stable sort with `reverse=True` modelled as
"`a` precedes `b` iff not `key a < key b`". -/

/-- Python `s.split("-")` over the characters of `s`: splits on every
dash, keeping empty pieces; the empty string yields one empty piece. -/
def splitDash : List Char → List (List Char)
  | [] => [[]]
  | c :: rest =>
      let r := splitDash rest
      if c = '-' then [] :: r
      else
        match r with
        | h :: t => (c :: h) :: t
        | [] => [[c]]

/-- Python `s.isdigit()` for ASCII text: nonempty and all decimal digits. -/
def pyIsDigit (s : List Char) : Bool :=
  !s.isEmpty && s.all Char.isDigit

/-- Python `int(s)` on a string of decimal digits. -/
def digitsToNat (s : List Char) : ℕ :=
  s.foldl (fun a c => a * 10 + (c.toNat - 48)) 0

/-- Shallow embedding of `extract_number_from_name` (utils.py lines
250-275): with a `YYYY-MM-DD-` date prefix the number is looked for after
the date, otherwise a leading all-digit segment is the number; `None`
when no number is found. -/
def extractNumberFromName (name : List Char) : Option ℕ :=
  let parts := splitDash name
  if 4 ≤ parts.length ∧ (parts.take 3).all pyIsDigit then
    match parts.drop 3 with
    | p :: _ => if pyIsDigit p then some (digitsToNat p) else none
    | [] => none
  else
    match parts with
    | p :: _ => if pyIsDigit p then some (digitsToNat p) else none
    | [] => none

/-- Shallow embedding of `strip_number_prefix` (utils.py lines 278-300):
drops a `YYYY-MM-DD-` date prefix and then a following all-digit segment,
or just a leading all-digit segment; when everything was stripped the
original name is returned. -/
def stripNumberPrefixStem (name : List Char) : List Char :=
  let parts := splitDash name
  let stripped :=
    if 4 ≤ parts.length ∧ (parts.take 3).all pyIsDigit then
      let q := parts.drop 3
      match q with
      | p :: rest => if pyIsDigit p then rest else q
      | [] => q
    else
      match parts with
      | p :: rest => if pyIsDigit p then rest else parts
      | [] => parts
  if stripped.isEmpty then name else List.intercalate ['-'] stripped

/-- The second component of `sort_key` in `PageCollection.sorted`:
an extracted number, or Python `0` / `float("inf")` when absent. -/
inductive NumKey where
  | num : ℕ → NumKey
  | inf : NumKey
  deriving DecidableEq

/-- Python `<` between the numeric key values (`int` vs `float("inf")`). -/
def NumKey.ltB : NumKey → NumKey → Bool
  | NumKey.num a, NumKey.num b => a < b
  | NumKey.num _, NumKey.inf => true
  | NumKey.inf, _ => false

/-- Python string `<` (code-point lexicographic). -/
def charListLtB : List Char → List Char → Bool
  | [], [] => false
  | [], _ :: _ => true
  | _ :: _, [] => false
  | a :: as, b :: bs =>
      if a.toNat < b.toNat then true
      else if b.toNat < a.toNat then false
      else charListLtB as bs

/-- The fields of `Page` read by `PageCollection.sorted`'s `sort_key`:
`p.date` (an ordered timestamp, modelled by `ℤ`) and `p.path.stem`. -/
structure SortPage where
  date : ℤ
  stem : List Char
  deriving DecidableEq

/-- Shallow embedding of `sort_key` in `PageCollection.sorted`
(collections.py lines 55-61): `number = extract_number_from_name(stem)`;
`num_key = number if number is not None else (0 if not reverse else
float("inf"))`; `name_key = strip_number_prefix(stem).lower()`;
key `(p.date, num_key, name_key)`. -/
def sortKey (reverse : Bool) (p : SortPage) : ℤ × NumKey × List Char :=
  let numKey :=
    match extractNumberFromName p.stem with
    | some n => NumKey.num n
    | none => if reverse then NumKey.inf else NumKey.num 0
  (p.date, numKey, (stripNumberPrefixStem p.stem).map Char.toLower)

/-- Python `<` on the key tuples (lexicographic tuple comparison). -/
def keyLtB : ℤ × NumKey × List Char → ℤ × NumKey × List Char → Bool
  | (d1, n1, s1), (d2, n2, s2) =>
    if d1 < d2 then true
    else if d2 < d1 then false
    else if NumKey.ltB n1 n2 then true
    else if NumKey.ltB n2 n1 then false
    else charListLtB s1 s2

/-- "May `a` stay before `b`" for Python `sorted(key=sort_key,
reverse=reverse)`: descending keeps `a` before `b` unless
`key a < key b`, ascending unless `key b < key a`. -/
def pageLeB (reverse : Bool) (a b : SortPage) : Bool :=
  if reverse then ! keyLtB (sortKey true a) (sortKey true b)
  else ! keyLtB (sortKey false b) (sortKey false a)

/-- Stable insertion of `x` before the first element it may precede. -/
def insertLe (le : SortPage → SortPage → Bool) (x : SortPage) :
    List SortPage → List SortPage
  | [] => [x]
  | y :: ys => if le x y then x :: y :: ys else y :: insertLe le x ys

/-- Stable insertion sort (equal-key elements keep their input order). -/
def sortStable (le : SortPage → SortPage → Bool) : List SortPage → List SortPage
  | [] => []
  | x :: xs => insertLe le x (sortStable le xs)

/-- Shallow embedding of `PageCollection.sorted(reverse)`
(collections.py lines 38-67): Python's stable sort under the `sort_key`
ordering. -/
def sortedPages (pages : List SortPage) (reverse : Bool) : List SortPage :=
  sortStable (pageLeB reverse) pages

/-- A numbered page and an unnumbered page sharing one date. -/
def alphaPost : SortPage := ⟨0, "01-alpha".data⟩

/-- The unnumbered companion of `alphaPost`. -/
def betaPost : SortPage := ⟨0, "beta".data⟩

/-! ## Slugs, URL derivation, layout resolution, image paths
(src/medusa/utils.py, src/medusa/content.py, src/medusa/renderers.py) -/

/-- Python `s.split(sep)` for a one-character separator, over characters:
splits on every occurrence, keeping empty pieces. -/
def splitOnChar (sep : Char) : List Char → List (List Char)
  | [] => [[]]
  | c :: rest =>
      let r := splitOnChar sep rest
      if c = sep then [] :: r
      else
        match r with
        | h :: t => (c :: h) :: t
        | [] => [[c]]

/-- ASCII letter or digit, the class `[a-zA-Z0-9]` of `slugify`. -/
def isAsciiAlnum (c : Char) : Bool :=
  (48 ≤ c.toNat && c.toNat ≤ 57) || (65 ≤ c.toNat && c.toNat ≤ 90) ||
    (97 ≤ c.toNat && c.toNat ≤ 122)

/-- One pass of `re.sub(r"[^a-zA-Z0-9]+", "-", s)`: each maximal run of
non-alphanumeric characters becomes a single dash.  `inRun` records
whether the previous character was part of such a run. -/
def collapseNonAlnum : Bool → List Char → List Char
  | _, [] => []
  | inRun, c :: rest =>
      if isAsciiAlnum c then c :: collapseNonAlnum false rest
      else if inRun then collapseNonAlnum true rest
      else '-' :: collapseNonAlnum true rest

/-- Python `s.strip("-")`: drop leading and trailing dashes. -/
def stripDashes (l : List Char) : List Char :=
  ((l.dropWhile fun c => c = '-').reverse.dropWhile fun c => c = '-').reverse

/-- Shallow embedding of `slugify` (utils.py lines 37-53): drop a
`YYYY-MM-DD-` date prefix, collapse non-alphanumeric runs to dashes,
strip edge dashes, lowercase, and fall back to `"index"` when empty. -/
def slugify (name : List Char) : List Char :=
  let cleaned :=
    if name.contains '-' then
      let parts := splitOnChar '-' name
      if 4 ≤ parts.length ∧ (parts.take 3).all pyIsDigit then
        List.intercalate ['-'] (parts.drop 3)
      else name
    else name
  let lowered := (stripDashes (collapseNonAlnum false cleaned)).map Char.toLower
  if lowered.isEmpty then "index".data else lowered

/-- Shallow embedding of `ContentProcessor._derive_url` (content.py lines
445-455): `parentParts` are the parts of `rel.parent` (empty for a
top-level file), `stem` is `rel.stem` and `slug` the page slug. -/
def deriveUrl (parentParts : List (List Char)) (stem slug : List Char) :
    List Char :=
  if stem = "index".data ∧ parentParts = [] then ['/']
  else
    let segments := parentParts.filter fun p => !p.isEmpty
    let urlParts := if slug = "index".data then segments else segments ++ [slug]
    let path := List.intercalate ['/'] urlParts
    if path.isEmpty then ['/'] else '/' :: path ++ ['/']

/-- URL of a page as assembled in `ContentProcessor._build_page`
(content.py lines 333-334): `slug = slugify(path.stem)` then
`url = self._derive_url(rel, slug)`. -/
def pageUrl (parentParts : List (List Char)) (stem : List Char) : List Char :=
  deriveUrl parentParts stem (slugify stem)

/-- Shallow embedding of `ContentProcessor._group_from_folder`
(content.py lines 439-443): first path component of the folder. -/
def groupFromFolder (folder : List Char) : List Char :=
  if folder.isEmpty then [] else (splitOnChar '/' folder).headD []

/-- Shallow embedding of `ContentProcessor._resolve_layout` (content.py
lines 417-437): `stem` is `path.stem`, `folder` the folder string, and
`layoutFiles` the names of the files that exist under `_layouts`.  The
ordered candidates are `folder/stem` then the group for foldered files,
the bare stem for root files, then `default`; each candidate is probed
with the suffixes `.html.jinja`, `.jinja`, `.html`, then the exact name,
and the first candidate with an existing file wins, else `default`. -/
def resolveLayout (stem folder : List Char) (layoutFiles : List (List Char)) :
    List Char :=
  let candidates :=
    (if !folder.isEmpty then [folder ++ '/' :: stem, groupFromFolder folder]
     else [stem]) ++ ["default".data]
  match candidates.find? (fun c =>
      [".html.jinja".data, ".jinja".data, ".html".data, ([] : List Char)].any
        fun suffix => layoutFiles.contains (c ++ suffix)) with
  | some c => c
  | none => "default".data

/-- Components of a `PurePosixPath`: split on `/`, dropping empty and
`.` components (`..` is kept; `pathlib` does not resolve it). -/
def posixComponents (s : List Char) : List (List Char) :=
  (splitOnChar '/' s).filter fun p => !p.isEmpty && !(p = ['.'] : Bool)

/-- Python `(Path(folder) if folder else Path()) / src` followed by
`.as_posix()`, for a non-absolute `src`: concatenate the components; an
empty result renders as `"."`. -/
def pathJoinPosix (folder src : List Char) : List Char :=
  let comps := posixComponents folder ++ posixComponents src
  if comps.isEmpty then ['.'] else List.intercalate ['/'] comps

/-- Shallow embedding of `_rewrite_image_path` from content.py (lines
159-173), the version used by the page build for Markdown images and for
inline `<img src>` tags: absolute, protocol-relative and rooted sources
are returned unchanged, every other source is resolved against the
page folder under `/assets/images/`.  This version has no
template-marker check. -/
def rewriteImagePath (src folder : List Char) : List Char :=
  if List.isPrefixOf "http://".data src || List.isPrefixOf "https://".data src
      || List.isPrefixOf "//".data src || List.isPrefixOf "/".data src then src
  else "/assets/images/".data ++ pathJoinPosix folder src

/-- The left brace character, written by code point to keep it out of
string literals. -/
def braceL : Char := Char.ofNat 123

/-- Python `"\x7b\x7b" in src`: two consecutive left braces occur. -/
def hasTemplateMarker : List Char → Bool
  | [] => false
  | [_] => false
  | a :: b :: rest =>
      if a = braceL ∧ b = braceL then true else hasTemplateMarker (b :: rest)

/-- Shallow embedding of `_rewrite_image_path` from renderers.py (lines
42-56): identical to the content.py version except that any source
containing a template-expression marker is also returned unchanged. -/
def rewriteImagePathRenderers (src folder : List Char) : List Char :=
  if List.isPrefixOf "http://".data src || List.isPrefixOf "https://".data src
      || List.isPrefixOf "//".data src || List.isPrefixOf "/".data src
      || hasTemplateMarker src then src
  else "/assets/images/".data ++ pathJoinPosix folder src

/-! ## Frontmatter extraction (src/medusa/content.py lines 36-57)

`_extract_frontmatter` anchors the pattern
`---\s*\n(.*?)\n---\s*\n` (DOTALL) at byte 0 with `re.match`, then
feeds the captured group to `yaml.safe_load`.  We embed the fixed
pattern as a small backtracking matcher (greedy `\s*` before each
newline, lazy group, leftmost-first ordering exactly as Python's engine),
and keep the YAML parser abstract: the code only inspects whether it
raised, and otherwise runs `data = yaml.safe_load(...) or \x7b\x7d`
followed by an `isinstance(data, dict)` test.  The `or \x7b\x7d` coerces
every falsy result — `None`, the empty list, `0`, the empty string,
`False`, the empty dict — to the empty dict, which then passes the
`isinstance` test; only a truthy non-mapping reaches the non-dict
branch. -/

/-- Python regex `\s` over ASCII. -/
def pyIsSpace (c : Char) : Bool :=
  c = ' ' || c = '\t' || c = '\n' || c = '\r' || c.toNat = 11 || c.toNat = 12

/-- All ways to match `\s*\n` at the head of `s`, in ascending order of
characters consumed; each element is the remaining text.  (A candidate
consumes `k` whitespace characters and then one newline.) -/
def wsNlSplits : List Char → List (List Char)
  | [] => []
  | c :: rest =>
      (if c = '\n' then [rest] else []) ++
        (if pyIsSpace c then wsNlSplits rest else [])

/-- The trailing `\s*\n` of the pattern: the regex engine takes the
greedy (longest) whitespace run, i.e. the last candidate. -/
def tailRest (u : List Char) : Option (List Char) :=
  (wsNlSplits u).getLast?

/-- The lazy `(.*?)\n---\s*\n` part: try the shortest group first,
extending it one character at a time; at each stop the text must
continue with a newline, `---`, and a `\s*\n` tail.  Returns the group
and the text after the whole match. -/
def lazyBody : List Char → Option (List Char × List Char)
  | [] => none
  | c :: rest =>
      match
        (if c = '\n' && List.isPrefixOf "---".data rest then
          match tailRest (rest.drop 3) with
          | some r => some (([] : List Char), r)
          | none => none
        else none) with
      | some pr => some pr
      | none =>
          match lazyBody rest with
          | some (g, r) => some (c :: g, r)
          | none => none

/-- First success of `f` along a list (the backtracking order of the
opening `\s*\n`, greedy first). -/
def firstSome {α β : Type} (f : α → Option β) : List α → Option β
  | [] => none
  | x :: xs =>
      match f x with
      | some r => some r
      | none => firstSome f xs

/-- Anchored match of `---\s*\n(.*?)\n---\s*\n` with DOTALL at byte 0,
as performed by `FRONTMATTER_RE.match(text)`: `some (group, rest)` gives
the captured group and `text[match.end():]`. -/
def matchFrontmatterBlock (text : List Char) : Option (List Char × List Char) :=
  if List.isPrefixOf "---".data text then
    firstSome lazyBody (wsNlSplits (text.drop 3)).reverse
  else none

/-- Outcome of `yaml.safe_load` as far as `_extract_frontmatter` looks
at it: a (truthy) mapping, a falsy value of any type (`None`, `[]`, `0`,
the empty string, `False`, the empty dict — all coerced to the empty
dict by `or \x7b\x7d`), a truthy non-mapping, or a raised
`yaml.YAMLError`. -/
inductive YamlResult (μ : Type) where
  | mapping : μ → YamlResult μ
  | falsy : YamlResult μ
  | truthyNonMapping : YamlResult μ
  | parseError : YamlResult μ
  deriving DecidableEq

/-- Shallow embedding of `_extract_frontmatter` (content.py lines
39-57): no match keeps the whole text; a parse error or a truthy
non-mapping value degrades to the empty mapping with the body unchanged;
any falsy result is coerced to the empty dict by `or \x7b\x7d`, passes
the `isinstance(data, dict)` test, and so comes back as the empty
mapping with the body after the closing delimiter; a mapping is
returned with the body after the closing delimiter. -/
def extractFrontmatter {μ : Type} (emptyMap : μ)
    (parse : List Char → YamlResult μ) (text : List Char) : μ × List Char :=
  match matchFrontmatterBlock text with
  | none => (emptyMap, text)
  | some (group, rest) =>
      match parse group with
      | YamlResult.mapping m => (m, rest)
      | YamlResult.falsy => (emptyMap, rest)
      | YamlResult.truthyNonMapping => (emptyMap, text)
      | YamlResult.parseError => (emptyMap, text)

/-! ## Heading ids and TOC (src/medusa/content.py lines 75-88, 195-219)

`_HighlightRenderer.heading` intercepts every Markdown heading in
document order: it slugifies the heading text with
`_generate_heading_id`, de-duplicates ids through the
`_heading_id_counts` dictionary, and records a `Heading`.  We model the
dictionary as a function `List Char → Option ℕ` and the rendering of a
document as the fold of `heading` over the list of `(text, level)`
pairs. -/

/-- Python regex `\w` over ASCII: letters, digits, underscore. -/
def isWordChar (c : Char) : Bool :=
  isAsciiAlnum c || c = '_'

/-- Python `s.strip()`: drop leading and trailing whitespace. -/
def pyStripWs (l : List Char) : List Char :=
  ((l.dropWhile pyIsSpace).reverse.dropWhile pyIsSpace).reverse

/-- One pass of `re.sub(r"[-\s]+", "-", s)`: each maximal run of dashes
and whitespace becomes a single dash. -/
def collapseDashSpace : Bool → List Char → List Char
  | _, [] => []
  | inRun, c :: rest =>
      if c = '-' || pyIsSpace c then
        if inRun then collapseDashSpace true rest
        else '-' :: collapseDashSpace true rest
      else c :: collapseDashSpace false rest

/-- Shallow embedding of `_generate_heading_id` (content.py lines 75-88):
lowercase and strip, delete characters outside `\w`, whitespace and `-`,
collapse dash/space runs to a single dash, strip edge dashes. -/
def generateHeadingId (text : List Char) : List Char :=
  stripDashes (collapseDashSpace false
    ((pyStripWs (text.map Char.toLower)).filter
      fun c => isWordChar c || pyIsSpace c || c = '-'))

/-- Decimal digits of `n` as characters, most significant first (Python
`str(n)` for `n ≥ 1`; the structural fuel keeps the definition
kernel-computable). -/
def natDigitsCharsAux : ℕ → ℕ → List Char
  | 0, _ => []
  | _ + 1, 0 => []
  | fuel + 1, n + 1 =>
      natDigitsCharsAux fuel ((n + 1) / 10) ++ [Char.ofNat (48 + (n + 1) % 10)]

/-- Python `str(n)` for positive `n` (empty for `0`, which the heading
counter never renders). -/
def natDigitsChars (n : ℕ) : List Char :=
  natDigitsCharsAux n n

/-- The `Heading` dataclass (content.py lines 60-72). -/
structure Heading where
  id : List Char
  text : List Char
  level : ℕ
  deriving DecidableEq

/-- Shallow embedding of repeated `_HighlightRenderer.heading` calls
(content.py lines 195-219) over the document's headings in order:
`counts` is `self._heading_id_counts`; an unseen base id is stored with
counter `0` and used bare, a seen one is bumped and suffixed with the
new counter. -/
def processHeadings (counts : List Char → Option ℕ) :
    List (List Char × ℕ) → List Heading
  | [] => []
  | (t, lvl) :: rest =>
      match counts (generateHeadingId t) with
      | some n =>
          ⟨generateHeadingId t ++ '-' :: natDigitsChars (n + 1), t, lvl⟩ ::
            processHeadings
              (fun k => if k = generateHeadingId t then some (n + 1) else counts k)
              rest
      | none =>
          ⟨generateHeadingId t, t, lvl⟩ ::
            processHeadings
              (fun k => if k = generateHeadingId t then some 0 else counts k)
              rest

/-- The TOC of a document: `_HighlightRenderer` starts with an empty
`_heading_id_counts` dictionary. -/
def tocOf (hs : List (List Char × ℕ)) : List Heading :=
  processHeadings (fun _ => none) hs

/-- Number of earlier headings whose slug is `b`. -/
def slugCount (b : List Char) : List (List Char) → ℕ
  | [] => 0
  | t :: r => (if generateHeadingId t = b then 1 else 0) + slugCount b r

/-- The ids the specification describes, written from the spec's words:
with `prev` the texts already seen, the occurrence count of a heading's
slug decides its id — `base` for the first occurrence, `base-k` for the
`k`-th repeat, in encounter order. -/
def specProcess (prev : List (List Char)) : List (List Char × ℕ) → List Heading
  | [] => []
  | (t, lvl) :: rest =>
      ⟨(if slugCount (generateHeadingId t) prev = 0 then generateHeadingId t
        else generateHeadingId t ++ '-'
          :: natDigitsChars (slugCount (generateHeadingId t) prev)), t, lvl⟩ ::
        specProcess (prev ++ [t]) rest

/-- Decimal read-back of a digit string. -/
def unChars (l : List Char) : ℕ :=
  l.foldl (fun a c => a * 10 + (c.toNat - 48)) 0

/-- C1: when `build_site` raises inside `DevServer.rebuild`, the `finally`
block releases the `Rebuilding` guard and stamps the last-rebuild time
unconditionally, and the live output directory and the last accepted
signature are left unchanged: the staging directory is never swapped in on
failure. -/
theorem rebuild_buildError_recovers {σ α ε : Type} [DecidableEq σ]
    (st : DevState σ α) (now : ℚ) (signature : Option σ) (err : ε) (endTime : ℚ)
    (hguard : ¬(st.rebuilding = true ∨ now - st.lastRebuildAt < debounceSeconds))
    (hsig : ¬(signature ≠ none ∧ signature = st.lastSignature)) :
    (rebuild st now signature (Except.error err) endTime).1.rebuilding = false ∧
    (rebuild st now signature (Except.error err) endTime).1.lastRebuildAt = endTime ∧
    (rebuild st now signature (Except.error err) endTime).1.liveOutput = st.liveOutput ∧
    (rebuild st now signature (Except.error err) endTime).1.lastSignature
      = st.lastSignature ∧
    (rebuild st now signature (Except.error err) endTime).2.activated = false ∧
    (rebuild st now signature (Except.error err) endTime).2.broadcast = false := by
  unfold rebuild
  rw [if_neg hguard, if_neg hsig]
  exact ⟨rfl, rfl, rfl, rfl, rfl, rfl⟩

/-- Witness for C1 at a concrete failing rebuild. -/
theorem rebuild_buildError_recovers_witness :
    (rebuild (⟨false, 0, some 7, some 3⟩ : DevState ℕ ℕ) 1 (some 9)
        (Except.error ()) 2).1.liveOutput = some 3 ∧
    (rebuild (⟨false, 0, some 7, some 3⟩ : DevState ℕ ℕ) 1 (some 9)
        (Except.error ()) 2).1.lastSignature = some 7 ∧
    (rebuild (⟨false, 0, some 7, some 3⟩ : DevState ℕ ℕ) 1 (some 9)
        (Except.error ()) 2).1.rebuilding = false ∧
    (rebuild (⟨false, 0, some 7, some 3⟩ : DevState ℕ ℕ) 1 (some 9)
        (Except.error ()) 2).1.lastRebuildAt = 2 := by
  have h := rebuild_buildError_recovers (⟨false, 0, some 7, some 3⟩ : DevState ℕ ℕ)
    1 (some 9) () 2
    (by
      rw [not_or]
      refine ⟨by simp, by rw [debounceSeconds]; norm_num⟩)
    (by simp)
  exact ⟨h.2.2.1, h.2.2.2.1, h.1, h.2.1⟩

/-- C2 counterexample: when the watched roots hold no regular files the
computed signature is `none`, the suppression test `signature is not None
and signature == self._last_signature` never fires, and two consecutive
change events with no intervening mutation of any watched file each run a
full staged rebuild and broadcast — two broadcasts, not one. -/
theorem rebuild_emptyRoots_twoBroadcasts :
    (rebuild (⟨false, 0, none, some 0⟩ : DevState (List (String × ℕ × ℕ)) ℕ) 1
        (computeSignature []) (Except.ok 1 : Except Unit ℕ) 2).2
      = ⟨true, true, true⟩ ∧
    (rebuild
        (rebuild (⟨false, 0, none, some 0⟩ : DevState (List (String × ℕ × ℕ)) ℕ) 1
          (computeSignature []) (Except.ok 1 : Except Unit ℕ) 2).1 3
        (computeSignature []) (Except.ok 2 : Except Unit ℕ) 4).2
      = ⟨true, true, true⟩ := by
  have hg1 : ¬((false : Bool) = true ∨ (1 : ℚ) - 0 < debounceSeconds) := by
    rw [not_or]
    exact ⟨by simp, by rw [debounceSeconds]; norm_num⟩
  have hg2 : ¬((false : Bool) = true ∨ (3 : ℚ) - 2 < debounceSeconds) := by
    rw [not_or]
    exact ⟨by simp, by rw [debounceSeconds]; norm_num⟩
  have h1 : rebuild (⟨false, 0, none, some 0⟩ : DevState (List (String × ℕ × ℕ)) ℕ) 1
      (computeSignature []) (Except.ok 1 : Except Unit ℕ) 2
      = (⟨false, 2, none, some 1⟩, ⟨true, true, true⟩) := by
    show rebuild _ 1 none _ 2 = _
    unfold rebuild
    rw [if_neg hg1, if_neg (by simp)]
  have h2 : rebuild
      (⟨false, 2, none, some 1⟩ : DevState (List (String × ℕ × ℕ)) ℕ) 3
      (computeSignature []) (Except.ok 2 : Except Unit ℕ) 4
      = (⟨false, 4, none, some 2⟩, ⟨true, true, true⟩) := by
    show rebuild _ 3 none _ 4 = _
    unfold rebuild
    rw [if_neg hg2, if_neg (by simp)]
  rw [h1]
  exact ⟨rfl, by rw [h2]⟩

/-- C2 amended: provided the watched roots contain at least one regular
file — so the computed signature is not `None` — a first change event runs
exactly one staged build plus broadcast, and a second consecutive event
with no intervening mutation (same signature) is dropped before any
staging-directory work or broadcast, whatever the outcome of the build it
would have run. -/
theorem rebuild_sameSignature_suppressed {σ α ε : Type} [DecidableEq σ]
    (st : DevState σ α) (t1 e1 t2 e2 : ℚ) (s : σ) (out : α) (b2 : Except ε α)
    (h0 : st.rebuilding = false)
    (h1 : ¬ t1 - st.lastRebuildAt < debounceSeconds)
    (h2 : some s ≠ st.lastSignature) :
    (rebuild st t1 (some s) (Except.ok out : Except ε α) e1).2 = ⟨true, true, true⟩ ∧
    rebuild (rebuild st t1 (some s) (Except.ok out : Except ε α) e1).1 t2 (some s) b2 e2
      = ((rebuild st t1 (some s) (Except.ok out : Except ε α) e1).1,
          ⟨false, false, false⟩) := by
  have hfirst : rebuild st t1 (some s) (Except.ok out : Except ε α) e1
      = (⟨false, e1, some s, some out⟩, ⟨true, true, true⟩) := by
    unfold rebuild
    rw [if_neg (by rw [not_or]; exact ⟨by simp [h0], h1⟩),
      if_neg (fun h => h2 h.2)]
  refine ⟨by rw [hfirst], ?_⟩
  rw [hfirst]
  unfold rebuild
  by_cases hc : ((false : Bool) = true ∨ t2 - e1 < debounceSeconds)
  · rw [if_pos hc]
  · rw [if_neg hc, if_pos ⟨by simp, rfl⟩]

/-- Witness for C2-amended at concrete inputs. -/
theorem rebuild_sameSignature_suppressed_witness :
    (rebuild (⟨false, 0, some 7, some 3⟩ : DevState ℕ ℕ) 1 (some 9)
        (Except.ok 5 : Except Unit ℕ) 2).2 = ⟨true, true, true⟩ ∧
    rebuild (rebuild (⟨false, 0, some 7, some 3⟩ : DevState ℕ ℕ) 1 (some 9)
        (Except.ok 5 : Except Unit ℕ) 2).1 3 (some 9)
        (Except.ok 6 : Except Unit ℕ) 4
      = ((rebuild (⟨false, 0, some 7, some 3⟩ : DevState ℕ ℕ) 1 (some 9)
        (Except.ok 5 : Except Unit ℕ) 2).1, ⟨false, false, false⟩) := by
  exact rebuild_sameSignature_suppressed
    (⟨false, 0, some 7, some 3⟩ : DevState ℕ ℕ) 1 2 3 4 9 5
    (Except.ok 6 : Except Unit ℕ) rfl
    (by rw [debounceSeconds]; norm_num) (by simp)

/-- C10: with no regular file under the watched roots
`_compute_signature` returns `None` (not an empty tuple), the suppression
check — which requires a non-`None` signature — never fires, and every
change event that passes the debounce window runs a full staged rebuild
and broadcast even though no content changed. -/
theorem computeSignature_empty_neverSuppresses {α ε : Type}
    (st : DevState (List (String × ℕ × ℕ)) α) (now endTime : ℚ) (out : α)
    (h0 : st.rebuilding = false)
    (h1 : ¬ now - st.lastRebuildAt < debounceSeconds) :
    computeSignature [] = none ∧
    rebuild st now (computeSignature []) (Except.ok out : Except ε α) endTime
      = (⟨false, endTime, none, some out⟩, ⟨true, true, true⟩) := by
  refine ⟨rfl, ?_⟩
  show rebuild st now none (Except.ok out : Except ε α) endTime = _
  unfold rebuild
  rw [if_neg (by rw [not_or]; exact ⟨by simp [h0], h1⟩), if_neg (by simp)]

/-- Witness for C10 at a concrete state. -/
theorem computeSignature_empty_neverSuppresses_witness :
    computeSignature [] = none ∧
    rebuild (⟨false, 0, some [("a", 1, 2)], some 3⟩
        : DevState (List (String × ℕ × ℕ)) ℕ) 1 (computeSignature [])
        (Except.ok 4 : Except Unit ℕ) 2
      = (⟨false, 2, none, some 4⟩, ⟨true, true, true⟩) :=
  computeSignature_empty_neverSuppresses
    (⟨false, 0, some [("a", 1, 2)], some 3⟩ : DevState (List (String × ℕ × ℕ)) ℕ)
    1 2 4 rfl (by rw [debounceSeconds]; norm_num)

/-- C3: with equal dates and exactly one numbered stem,
`sorted(reverse=True)` places the page *without* a number first — the
`float("inf")` key sorts first in descending order — contradicting the
code's own comment ("so non-numbered come last") and the spec; ascending
order places the unnumbered page first as specified. -/
theorem sorted_reverse_places_unnumbered_first :
    extractNumberFromName alphaPost.stem = some 1 ∧
    extractNumberFromName betaPost.stem = none ∧
    alphaPost.date = betaPost.date ∧
    sortedPages [alphaPost, betaPost] true = [betaPost, alphaPost] ∧
    sortedPages [alphaPost, betaPost] true ≠ [alphaPost, betaPost] ∧
    sortedPages [alphaPost, betaPost] false = [betaPost, alphaPost] := by
  decide

/-- C6: `ContentProcessor._resolve_layout` has no handling for a
`[name]` bracket suffix in the filename: for `contact[hero].html.jinja`
(stem `contact[hero].html`) at the site root with only a `default`
layout file present it resolves to `default`, not `hero` — although
`test_content.py` (`create_site` / `test_content_processing_builds_pages`)
requires that exact file to get layout `hero`.  The bracket-free candidate
chain of the claim does hold, as the third conjunct shows on the
`posts/happy.md` case of `test_layout_resolution_specificity`. -/
theorem resolveLayout_ignores_bracket_suffix :
    resolveLayout "contact[hero].html".data [] ["default.html.jinja".data]
      = "default".data ∧
    resolveLayout "contact[hero].html".data [] ["default.html.jinja".data]
      ≠ "hero".data ∧
    resolveLayout "happy".data "posts".data
      ["default.html.jinja".data, "posts.html.jinja".data,
        "posts/happy.html.jinja".data] = "posts/happy".data ∧
    resolveLayout "other".data "posts".data
      ["default.html.jinja".data, "posts.html.jinja".data,
        "posts/happy.html.jinja".data] = "posts".data := by
  decide

/-- Head and last character of the `f"/\x7bpath\x7d/" if path else "/"`
wrapping step of `_derive_url`. -/
theorem wrapSlash_shape (path : List Char) :
    (if path.isEmpty then ['/'] else '/' :: path ++ ['/']).head? = some '/' ∧
    (if path.isEmpty then ['/'] else '/' :: path ++ ['/']).getLast? = some '/' := by
  by_cases h : path.isEmpty
  · rw [if_pos h]
    exact ⟨rfl, rfl⟩
  · rw [if_neg h]
    refine ⟨rfl, ?_⟩
    show (('/' :: path) ++ ['/']).getLast? = some '/'
    exact List.getLast?_concat _

/-- C5: URL derivation maps the top-level index file to `/`; the file
`posts/2024-03-01-first.md` gets slug `first` and url `/posts/first/`;
a slug equal to `index` is not appended (folder path alone); and every
derived URL begins and ends with `/`. -/
theorem deriveUrl_spec :
    pageUrl [] "index".data = "/".data ∧
    slugify "2024-03-01-first".data = "first".data ∧
    pageUrl ["posts".data] "2024-03-01-first".data = "/posts/first/".data ∧
    pageUrl ["posts".data] "index".data = "/posts/".data ∧
    ∀ parentParts stem slug,
      (deriveUrl parentParts stem slug).head? = some '/' ∧
      (deriveUrl parentParts stem slug).getLast? = some '/' := by
  refine ⟨by decide, by decide, by decide, by decide, ?_⟩
  intro parts stem slug
  unfold deriveUrl
  by_cases h1 : stem = "index".data ∧ parts = []
  · rw [if_pos h1]
    exact ⟨rfl, rfl⟩
  · rw [if_neg h1]
    exact wrapSlash_shape _

/-- C8: the content.py image rewrite is the identity exactly on sources
starting with `http://`, `https://`, `//` or `/`, and maps every other
source to `/assets/images/` followed by the source joined to the page
folder; the two concrete cases are the ones asserted in
`test_include_drafts_and_url_rules`. -/
theorem rewriteImagePath_cases :
    (∀ src folder,
      (List.isPrefixOf "http://".data src || List.isPrefixOf "https://".data src
        || List.isPrefixOf "//".data src || List.isPrefixOf "/".data src) = true →
      rewriteImagePath src folder = src) ∧
    (∀ src folder,
      (List.isPrefixOf "http://".data src || List.isPrefixOf "https://".data src
        || List.isPrefixOf "//".data src || List.isPrefixOf "/".data src) = false →
      rewriteImagePath src folder
        = "/assets/images/".data ++ pathJoinPosix folder src) ∧
    rewriteImagePath "/static/logo.png".data "posts".data
      = "/static/logo.png".data ∧
    rewriteImagePath "icons/logo.png".data "posts".data
      = "/assets/images/posts/icons/logo.png".data := by
  refine ⟨?_, ?_, by decide, by decide⟩
  · intro src folder h
    unfold rewriteImagePath
    rw [if_pos h]
  · intro src folder h
    unfold rewriteImagePath
    rw [if_neg (by simp [h])]

/-- Witness for C8 at the two concrete sources of the tests. -/
theorem rewriteImagePath_cases_witness :
    rewriteImagePath "/static/logo.png".data "posts".data
      = "/static/logo.png".data ∧
    rewriteImagePath "icons/logo.png".data "posts".data
      = "/assets/images/posts/icons/logo.png".data :=
  ⟨rewriteImagePath_cases.1 "/static/logo.png".data "posts".data (by decide),
    by
      have h := rewriteImagePath_cases.2.1 "icons/logo.png".data "posts".data
        (by decide)
      rw [h]
      decide⟩

/-- C7 counterexample: the content.py `_rewrite_image_path` — the one the
page build uses for Markdown images and inline `<img src>` tags — has no
template-expression-marker check and no fragment check: a source holding
`\x7b\x7b` and a bare `#fragment` source are both rewritten, not left
untouched. -/
theorem rewriteImagePath_rewrites_marker :
    hasTemplateMarker "\x7b\x7b logo \x7d\x7d".data = true ∧
    rewriteImagePath "\x7b\x7b logo \x7d\x7d".data "posts".data
      = "/assets/images/posts/\x7b\x7b logo \x7d\x7d".data ∧
    rewriteImagePath "\x7b\x7b logo \x7d\x7d".data "posts".data
      ≠ "\x7b\x7b logo \x7d\x7d".data ∧
    rewriteImagePath "#fragment".data [] = "/assets/images/#fragment".data ∧
    rewriteImagePath "#fragment".data [] ≠ "#fragment".data := by
  decide

/-- C7 amended: only the renderers.py copy of `_rewrite_image_path`
leaves template-marker sources untouched; both copies leave absolute,
protocol-relative and rooted sources untouched.  (The content.py copy,
which the build uses, rewrites template-marker and fragment sources like
any other relative source — see the counterexample.) -/
theorem rewriteImagePathRenderers_leaves_marker :
    (∀ src folder, hasTemplateMarker src = true →
      rewriteImagePathRenderers src folder = src) ∧
    (∀ src folder,
      (List.isPrefixOf "http://".data src || List.isPrefixOf "https://".data src
        || List.isPrefixOf "//".data src || List.isPrefixOf "/".data src) = true →
      rewriteImagePathRenderers src folder = src ∧
        rewriteImagePath src folder = src) := by
  constructor
  · intro src folder h
    unfold rewriteImagePathRenderers
    rw [if_pos (by simp [h])]
  · intro src folder h
    refine ⟨?_, ?_⟩
    · unfold rewriteImagePathRenderers
      rw [if_pos (by simp [h])]
    · unfold rewriteImagePath
      rw [if_pos h]

/-- Witness for C7-amended at concrete sources. -/
theorem rewriteImagePathRenderers_leaves_marker_witness :
    rewriteImagePathRenderers "\x7b\x7b logo \x7d\x7d".data "posts".data
      = "\x7b\x7b logo \x7d\x7d".data ∧
    rewriteImagePathRenderers "https://cdn.example.com/x.png".data "posts".data
      = "https://cdn.example.com/x.png".data ∧
    rewriteImagePath "https://cdn.example.com/x.png".data "posts".data
      = "https://cdn.example.com/x.png".data := by
  refine ⟨rewriteImagePathRenderers_leaves_marker.1 _ "posts".data (by decide), ?_, ?_⟩
  · exact (rewriteImagePathRenderers_leaves_marker.2 _ "posts".data (by decide)).1
  · exact (rewriteImagePathRenderers_leaves_marker.2 _ "posts".data (by decide)).2

/-- C9 amended: frontmatter extraction parses a `---` block anchored at
byte 0; a YAML parse error or a truthy non-mapping value silently
degrades to an empty mapping with the body equal to the whole original
text (no exception); a falsy result — `None`, `[]`, `0`, the empty
string, `False` — is coerced to the empty dict by `or \x7b\x7d`, passes
the mapping check, and comes back as the empty mapping with the body
equal to the text after the closing delimiter; a mapping is returned
with the body after the closing delimiter; text without an anchored
block is returned whole with an empty mapping. -/
theorem extractFrontmatter_policy {μ : Type} (emptyMap : μ)
    (parse : List Char → YamlResult μ) (text group rest : List Char)
    (hmatch : matchFrontmatterBlock text = some (group, rest)) :
    (parse group = YamlResult.parseError →
      extractFrontmatter emptyMap parse text = (emptyMap, text)) ∧
    (parse group = YamlResult.truthyNonMapping →
      extractFrontmatter emptyMap parse text = (emptyMap, text)) ∧
    (parse group = YamlResult.falsy →
      extractFrontmatter emptyMap parse text = (emptyMap, rest)) ∧
    (∀ m, parse group = YamlResult.mapping m →
      extractFrontmatter emptyMap parse text = (m, rest)) ∧
    (∀ other, matchFrontmatterBlock other = none →
      extractFrontmatter emptyMap parse other = (emptyMap, other)) := by
  refine ⟨?_, ?_, ?_, ?_, ?_⟩
  · intro h
    unfold extractFrontmatter
    simp only [hmatch, h]
  · intro h
    unfold extractFrontmatter
    simp only [hmatch, h]
  · intro h
    unfold extractFrontmatter
    simp only [hmatch, h]
  · intro m h
    unfold extractFrontmatter
    simp only [hmatch, h]
  · intro other h
    unfold extractFrontmatter
    simp only [h]

/-- C9 counterexample: for the text `---\n[]\n---\nbody` the block
parses to the empty list, a non-mapping value, yet
`yaml.safe_load(...) or \x7b\x7d` coerces the falsy `[]` to the empty
dict, the `isinstance(data, dict)` test passes, and the program returns
the body *after* the closing delimiter — not the full original text the
claim requires for non-mapping values. -/
theorem extractFrontmatter_falsy_list_strips_body :
    extractFrontmatter ([] : List (List Char × ℕ))
      (fun g => if g = "[]".data then YamlResult.falsy
        else YamlResult.parseError) "---\n[]\n---\nbody".data
      = ([], "body".data) ∧
    "body".data ≠ "---\n[]\n---\nbody".data := by
  decide

/-- Witness for C9-amended: the concrete text `---\na: 1\n---\nbody`
matches with group `a: 1` and body `body`; under a parser that errors on
that group the original text comes back whole, under one that maps it —
or one that yields a falsy value — the body after the delimiter comes
back; `x` prefixed text never matches. -/
theorem extractFrontmatter_policy_witness :
    extractFrontmatter ([] : List (List Char × ℕ))
      (fun _ => YamlResult.parseError) "---\na: 1\n---\nbody".data
      = ([], "---\na: 1\n---\nbody".data) ∧
    extractFrontmatter ([] : List (List Char × ℕ))
      (fun g => if g = "a: 1".data then YamlResult.mapping [("a".data, 1)]
        else YamlResult.parseError) "---\na: 1\n---\nbody".data
      = ([("a".data, 1)], "body".data) ∧
    extractFrontmatter ([] : List (List Char × ℕ))
      (fun _ => YamlResult.falsy) "---\na: 1\n---\nbody".data
      = ([], "body".data) ∧
    extractFrontmatter ([] : List (List Char × ℕ))
      (fun _ => YamlResult.parseError) "x---\na: 1\n---\nbody".data
      = ([], "x---\na: 1\n---\nbody".data) := by
  have hm : matchFrontmatterBlock "---\na: 1\n---\nbody".data
      = some ("a: 1".data, "body".data) := by decide
  refine ⟨?_, ?_, ?_, ?_⟩
  · exact (extractFrontmatter_policy [] _ _ _ _ hm).1 rfl
  · exact (extractFrontmatter_policy [] _ _ _ _ hm).2.2.2.1 [("a".data, 1)]
      (by decide)
  · exact (extractFrontmatter_policy []
      (fun _ => YamlResult.falsy) _ _ _ hm).2.2.1 rfl
  · exact (extractFrontmatter_policy []
      (fun _ => YamlResult.parseError) _ _ _ hm).2.2.2.2 _ (by decide)

/-- Character codes of decimal digits are their values plus 48. -/
theorem digitCharToNat (d : ℕ) (h : d < 10) :
    (Char.ofNat (48 + d)).toNat = 48 + d := by
  interval_cases d <;> decide

/-- Folding the decimal read-back over `natDigitsCharsAux` recovers the
number (with the accumulator scaled by a positive power of ten). -/
theorem natDigitsCharsAux_foldl :
    ∀ (fuel n : ℕ), n ≤ fuel → ∃ P, 0 < P ∧ ∀ a : ℕ,
      List.foldl (fun x c => x * 10 + (c.toNat - 48)) a
        (natDigitsCharsAux fuel n) = a * P + n := by
  intro fuel
  induction fuel with
  | zero =>
      intro n hn
      interval_cases n
      exact ⟨1, one_pos, fun a => by simp [natDigitsCharsAux]⟩
  | succ fuel ih =>
      intro n hn
      match n with
      | 0 => exact ⟨1, one_pos, fun a => by simp [natDigitsCharsAux]⟩
      | m + 1 =>
          have hdiv : (m + 1) / 10 ≤ fuel := by
            have := Nat.div_lt_self (Nat.succ_pos m) (by norm_num : 1 < 10)
            omega
          obtain ⟨P, hP, hfold⟩ := ih ((m + 1) / 10) hdiv
          refine ⟨P * 10, by positivity, fun a => ?_⟩
          show List.foldl _ a
            (natDigitsCharsAux fuel ((m + 1) / 10)
              ++ [Char.ofNat (48 + (m + 1) % 10)]) = _
          rw [List.foldl_append, hfold a]
          simp only [List.foldl_cons, List.foldl_nil]
          rw [digitCharToNat ((m + 1) % 10) (Nat.mod_lt _ (by norm_num))]
          have hmod : 10 * ((m + 1) / 10) + (m + 1) % 10 = m + 1 :=
            Nat.div_add_mod (m + 1) 10
          calc (a * P + (m + 1) / 10) * 10 + (48 + (m + 1) % 10 - 48)
              = a * (P * 10) + (10 * ((m + 1) / 10) + (m + 1) % 10) := by
                have h48 : 48 + (m + 1) % 10 - 48 = (m + 1) % 10 := by omega
                rw [h48]; ring
            _ = a * (P * 10) + (m + 1) := by rw [hmod]

/-- Reading back `natDigitsChars n` gives `n`. -/
theorem unChars_natDigitsChars (n : ℕ) : unChars (natDigitsChars n) = n := by
  obtain ⟨P, _, h⟩ := natDigitsCharsAux_foldl n n le_rfl
  simpa [unChars, natDigitsChars] using h 0

/-- `natDigitsChars` is injective. -/
theorem natDigitsChars_injective {m n : ℕ}
    (h : natDigitsChars m = natDigitsChars n) : m = n := by
  have := congrArg unChars h
  rwa [unChars_natDigitsChars, unChars_natDigitsChars] at this

/-- Digit strings contain no dash. -/
theorem natDigitsCharsAux_no_dash :
    ∀ fuel n, ∀ c ∈ natDigitsCharsAux fuel n, c ≠ '-' := by
  intro fuel
  induction fuel with
  | zero => intro n c hc; simp [natDigitsCharsAux] at hc
  | succ fuel ih =>
      intro n c hc
      match n with
      | 0 => simp [natDigitsCharsAux] at hc
      | m + 1 =>
          simp only [natDigitsCharsAux, List.mem_append,
            List.mem_singleton] at hc
          rcases hc with hc | hc
          · exact ih _ c hc
          · subst hc
            intro hcontra
            have h10 : (m + 1) % 10 < 10 := Nat.mod_lt _ (by norm_num)
            have hval := congrArg Char.toNat hcontra
            rw [digitCharToNat _ h10] at hval
            have hd : ('-').toNat = 45 := by decide
            rw [hd] at hval
            omega

/-- Digit strings contain no dash (top level). -/
theorem natDigitsChars_no_dash (n : ℕ) : ∀ c ∈ natDigitsChars n, c ≠ '-' :=
  natDigitsCharsAux_no_dash n n

/-- Splitting at a dash is unambiguous when both left parts are
dash-free. -/
theorem noDashSplit :
    ∀ (l₁ l₂ r₁ r₂ : List Char), (∀ c ∈ l₁, c ≠ '-') → (∀ c ∈ l₂, c ≠ '-') →
    l₁ ++ '-' :: r₁ = l₂ ++ '-' :: r₂ → l₁ = l₂ ∧ r₁ = r₂ := by
  intro l₁
  induction l₁ with
  | nil =>
      intro l₂ r₁ r₂ _ h₂ heq
      cases l₂ with
      | nil => simpa using heq
      | cons c l₂ =>
          simp only [List.nil_append, List.cons_append, List.cons.injEq] at heq
          exact absurd heq.1.symm (h₂ c (by simp))
  | cons a l₁ ih =>
      intro l₂ r₁ r₂ h₁ h₂ heq
      cases l₂ with
      | nil =>
          simp only [List.cons_append, List.nil_append, List.cons.injEq] at heq
          exact absurd heq.1 (h₁ a (by simp))
      | cons b l₂ =>
          simp only [List.cons_append, List.cons.injEq] at heq
          obtain ⟨hab, htail⟩ := heq
          obtain ⟨hl, hr⟩ := ih l₂ r₁ r₂ (fun c hc => h₁ c (by simp [hc]))
            (fun c hc => h₂ c (by simp [hc])) htail
          exact ⟨by rw [hab, hl], hr⟩

/-- Splitting at the last dash is unambiguous when both suffixes are
dash-free. -/
theorem lastDashSplit (b₁ b₂ d₁ d₂ : List Char)
    (h₁ : ∀ c ∈ d₁, c ≠ '-') (h₂ : ∀ c ∈ d₂, c ≠ '-')
    (heq : b₁ ++ '-' :: d₁ = b₂ ++ '-' :: d₂) : b₁ = b₂ ∧ d₁ = d₂ := by
  have hrev := congrArg List.reverse heq
  simp only [List.reverse_append, List.reverse_cons] at hrev
  rw [List.append_assoc, List.append_assoc] at hrev
  simp only [List.singleton_append] at hrev
  obtain ⟨hd, hb⟩ := noDashSplit d₁.reverse d₂.reverse b₁.reverse b₂.reverse
    (fun c hc => h₁ c (List.mem_reverse.mp hc))
    (fun c hc => h₂ c (List.mem_reverse.mp hc)) hrev
  constructor
  · have := congrArg List.reverse hb
    simpa using this
  · have := congrArg List.reverse hd
    simpa using this

/-- Counting slugs distributes over append. -/
theorem slugCount_append (b : List Char) (l₁ l₂ : List (List Char)) :
    slugCount b (l₁ ++ l₂) = slugCount b l₁ + slugCount b l₂ := by
  induction l₁ with
  | nil => simp [slugCount]
  | cons t r ih =>
      simp only [List.cons_append, slugCount]
      have ih' : slugCount b (r.append l₂) = slugCount b r + slugCount b l₂ := ih
      rw [ih']
      omega

/-- The rendered headings equal the claim-side encounter-order
description, for any dictionary state coherent with the texts already
seen. -/
theorem processHeadings_eq_spec :
    ∀ (hs : List (List Char × ℕ)) (counts : List Char → Option ℕ)
      (prev : List (List Char)),
    (∀ b, counts b
        = if slugCount b prev = 0 then none else some (slugCount b prev - 1)) →
    processHeadings counts hs = specProcess prev hs := by
  intro hs
  induction hs with
  | nil => intro counts prev _; rfl
  | cons head rest ih =>
      obtain ⟨t, lvl⟩ := head
      intro counts prev hc
      simp only [processHeadings, specProcess]
      by_cases h0 : slugCount (generateHeadingId t) prev = 0
      · have hcv : counts (generateHeadingId t) = none := by
          rw [hc, if_pos h0]
        rw [hcv, if_pos h0]
        refine congrArg (List.cons _) (ih _ (prev ++ [t]) ?_)
        intro b
        by_cases hb : b = generateHeadingId t
        · subst hb
          rw [if_pos rfl, slugCount_append, h0]
          simp [slugCount]
        · rw [if_neg hb, hc b, slugCount_append]
          have h0t : slugCount b [t] = 0 := by
            simp only [slugCount]
            rw [if_neg fun h => hb h.symm]
          rw [h0t]
          simp
      · have hcv : counts (generateHeadingId t)
            = some (slugCount (generateHeadingId t) prev - 1) := by
          rw [hc, if_neg h0]
        rw [hcv, if_neg h0]
        have hpred : slugCount (generateHeadingId t) prev
            = slugCount (generateHeadingId t) prev - 1 + 1 := by omega
        conv_rhs => rw [hpred]
        refine congrArg (List.cons _) (ih _ (prev ++ [t]) ?_)
        intro b
        by_cases hb : b = generateHeadingId t
        · subst hb
          rw [if_pos rfl, slugCount_append]
          have h1t : slugCount (generateHeadingId t) [t] = 1 := by
            simp [slugCount]
          rw [h1t]
          have hne : slugCount (generateHeadingId t) prev + 1 ≠ 0 := by omega
          rw [if_neg hne]
          congr 1
          omega
        · rw [if_neg hb, hc b, slugCount_append]
          have h0t : slugCount b [t] = 0 := by
            simp only [slugCount]
            rw [if_neg fun h => hb h.symm]
          rw [h0t]
          simp

/-- The TOC equals the encounter-order description from an empty
dictionary. -/
theorem tocOf_eq_spec (hs : List (List Char × ℕ)) :
    tocOf hs = specProcess [] hs :=
  processHeadings_eq_spec hs (fun _ => none) [] fun b => by simp [slugCount]

/-- Every heading yields exactly one TOC entry, in document order. -/
theorem specProcess_text_level :
    ∀ (hs : List (List Char × ℕ)) (prev : List (List Char)),
    (specProcess prev hs).map (fun h => (h.text, h.level)) = hs := by
  intro hs
  induction hs with
  | nil => intro prev; rfl
  | cons head rest ih =>
      obtain ⟨t, lvl⟩ := head
      intro prev
      simp only [specProcess, List.map_cons, ih]

/-- Every id produced after some point is a bare or suffixed slug of one
of the remaining texts, with a counter at least as large as the slug's
count over the prefix. -/
theorem specProcess_id_mem :
    ∀ (hs : List (List Char × ℕ)) (q : List (List Char)) (x : List Char),
    x ∈ (specProcess q hs).map Heading.id →
    ∃ u k, u ∈ hs.map Prod.fst ∧ slugCount (generateHeadingId u) q ≤ k ∧
      x = (if k = 0 then generateHeadingId u
        else generateHeadingId u ++ '-' :: natDigitsChars k) := by
  intro hs
  induction hs with
  | nil => intro q x hx; simp [specProcess] at hx
  | cons head rest ih =>
      obtain ⟨t, lvl⟩ := head
      intro q x hx
      simp only [specProcess, List.map_cons, List.mem_cons] at hx
      rcases hx with hx | hx
      · exact ⟨t, slugCount (generateHeadingId t) q, by simp, le_rfl, hx⟩
      · obtain ⟨u, k, hu, hk, hxk⟩ := ih (q ++ [t]) x hx
        refine ⟨u, k, ?_, ?_, hxk⟩
        · simp only [List.map_cons]
          exact List.mem_cons_of_mem _ hu
        · refine le_trans ?_ hk
          rw [slugCount_append]
          omega

/-- When no slug of the document is another slug with a dash-digit
suffix, all generated ids are distinct. -/
theorem specProcess_ids_nodup (S : List (List Char))
    (hfree : ∀ b₁ ∈ S, ∀ b₂ ∈ S, ∀ k, 1 ≤ k →
      b₁ ≠ b₂ ++ '-' :: natDigitsChars k) :
    ∀ (hs : List (List Char × ℕ)) (q : List (List Char)),
    (∀ p ∈ hs, generateHeadingId p.1 ∈ S) →
    ((specProcess q hs).map Heading.id).Nodup := by
  intro hs
  induction hs with
  | nil => intro q _; simp [specProcess]
  | cons head rest ih =>
      obtain ⟨t, lvl⟩ := head
      intro q hS
      simp only [specProcess, List.map_cons]
      rw [List.nodup_cons]
      refine ⟨?_, ih (q ++ [t]) fun p hp => hS p (List.mem_cons_of_mem _ hp)⟩
      intro hmem
      obtain ⟨u, k, hu, hk, hxk⟩ := specProcess_id_mem rest (q ++ [t]) _ hmem
      have hb0S : generateHeadingId t ∈ S := hS (t, lvl) (List.mem_cons_self _ _)
      have hbS : generateHeadingId u ∈ S := by
        obtain ⟨p, hp, hpu⟩ := List.mem_map.mp hu
        rw [← hpu]
        exact hS p (List.mem_cons_of_mem _ hp)
      rw [slugCount_append] at hk
      have hcnt : slugCount (generateHeadingId u) q
          + (if generateHeadingId t = generateHeadingId u then 1 else 0) ≤ k := by
        simpa [slugCount] using hk
      by_cases h0 : slugCount (generateHeadingId t) q = 0 <;> by_cases hk0 : k = 0
      · rw [if_pos h0, if_pos hk0] at hxk
        rw [if_pos hxk, hk0] at hcnt
        omega
      · rw [if_pos h0, if_neg hk0] at hxk
        exact hfree (generateHeadingId t) hb0S (generateHeadingId u) hbS k
          (Nat.one_le_iff_ne_zero.mpr hk0) hxk
      · rw [if_neg h0, if_pos hk0] at hxk
        exact hfree (generateHeadingId u) hbS (generateHeadingId t) hb0S
          (slugCount (generateHeadingId t) q)
          (Nat.one_le_iff_ne_zero.mpr h0) hxk.symm
      · rw [if_neg h0, if_neg hk0] at hxk
        obtain ⟨hbeq, hdeq⟩ := lastDashSplit _ _ _ _
          (natDigitsChars_no_dash _) (natDigitsChars_no_dash _) hxk
        have hck := natDigitsChars_injective hdeq
        rw [if_pos hbeq] at hcnt
        rw [← hbeq] at hcnt
        omega

/-- C4 counterexample: heading texts `A 1`, `A`, `A` produce ids `a-1`,
`a`, `a-1` — the de-duplication counter only tracks bare base slugs, so
the third heading's generated id collides with the first heading's. -/
theorem heading_ids_collide :
    (tocOf [("A 1".data, 2), ("A".data, 2), ("A".data, 2)]).map Heading.id
      = ["a-1".data, "a".data, "a-1".data] ∧
    ¬ ((tocOf [("A 1".data, 2), ("A".data, 2), ("A".data, 2)]).map
        Heading.id).Nodup := by
  decide

set_option maxHeartbeats 1000000 in
/-- C4 amended: every heading yields one TOC entry in document order,
repeats of one slug get ids `base`, `base-1`, `base-2`, … in encounter
order, and the ids are unique provided no heading slug equals another
heading slug followed by a dash and a positive decimal counter (without
that proviso uniqueness fails, see the counterexample). -/
theorem toc_structure (hs : List (List Char × ℕ)) :
    (tocOf hs).map (fun h => (h.text, h.level)) = hs ∧
    tocOf hs = specProcess [] hs ∧
    ((∀ b₁ ∈ hs.map (fun p => generateHeadingId p.1),
        ∀ b₂ ∈ hs.map (fun p => generateHeadingId p.1),
        ∀ k, 1 ≤ k → b₁ ≠ b₂ ++ '-' :: natDigitsChars k) →
      ((tocOf hs).map Heading.id).Nodup) := by
  refine ⟨?_, tocOf_eq_spec hs, ?_⟩
  · rw [tocOf_eq_spec hs]
    exact specProcess_text_level hs []
  · intro hfree
    rw [tocOf_eq_spec hs]
    refine specProcess_ids_nodup (hs.map (fun p => generateHeadingId p.1))
      hfree hs [] ?_
    intro p hp
    exact List.mem_map_of_mem (fun p => generateHeadingId p.1) hp

/-- Witness for C4-amended: three identical `Features` headings give ids
`features`, `features-1`, `features-2`, unique. -/
theorem toc_structure_witness :
    (tocOf [("Features".data, 2), ("Features".data, 2), ("Features".data, 3)]).map
        Heading.id
      = ["features".data, "features-1".data, "features-2".data] ∧
    ((tocOf [("Features".data, 2), ("Features".data, 2),
        ("Features".data, 3)]).map Heading.id).Nodup := by
  constructor
  · decide
  · refine (toc_structure
      [("Features".data, 2), ("Features".data, 2), ("Features".data, 3)]).2.2 ?_
    intro b₁ h₁ b₂ h₂ k hk heq
    have h₁' : b₁ = generateHeadingId "Features".data := by simpa using h₁
    have h₂' : b₂ = generateHeadingId "Features".data := by simpa using h₂
    rw [h₁', h₂'] at heq
    have hlen := congrArg List.length heq
    simp only [List.length_append, List.length_cons] at hlen
    omega

end Medusa
